import Mathlib

/-!
Verification development for the request-cache lifecycle subsystem of
`redux-starter-kit` (the RTK-query data-fetching extension).

The central artifact embedded here is the `cacheLifecycle` middleware
(`build` / `handleNewKey` in the repository source): a redux middleware that
maintains a `lifecycleMap : Record<string, CacheLifecycle>` from cache keys to
per-entry lifecycle records, registers a record when a matching `pending`
thunk action reduces, resolves the entry's `firstValueResolved` promise on the
first `fulfilled` action for the key, and resolves the `cleanup` promise (and
rejects a still-pending `firstValueResolved` with the distinguished
"never resolved" error, through a `Promise.race`) when the entry is removed by
`removeQueryResult`, `unsubscribeMutationResult` or `resetApiState`.

Promises are embedded by their settlement state: each lifecycle record carries
the settlement state of the `firstValueResolved` race and of the `cleanup`
promise, and the middleware's synchronous effects on those states are replayed
by an explicit `step` function over dispatched actions.

The `createAsyncThunk` implementation and the cache-slice reducer are not part
of the source tree here (only the thunk's test suite is); those parts are
modelled from the specification, as refined by the concrete dispatch sequences
the test suite pins down, and are marked `Modelled from the spec:` below.
-/

namespace ReduxStarterKit

/-! ### Serialized errors and dispatched thunk actions -/

/-- A serialized error value as carried by terminal thunk actions, mirroring
the `{ name, message }` shape produced by `miniSerializeError`. -/
structure SerializedError where
  name : String
  message : String
deriving DecidableEq

/-- One dispatched action belonging to a single async-thunk request execution:
`pending`, then one of `fulfilled`, `rejected` or `aborted`. The early
`createAsyncThunk` under test dispatches a *distinct* `aborted` action type
(`test/aborted` in the test suite), separate from `rejected`. -/
inductive ThunkEvent (R : Type) where
  | pending (requestId : String)
  | fulfilled (requestId : String) (result : R)
  | rejected (requestId : String) (error : SerializedError)
  | aborted (error : SerializedError) (reason : String)
deriving DecidableEq

/-- Whether a thunk action is a `pending` action. -/
def isPendingEvent {R : Type} : ThunkEvent R → Bool
  | ThunkEvent.pending _ => true
  | _ => false

/-- Whether a thunk action is a `fulfilled` or `rejected` action. -/
def isFulfilledOrRejected {R : Type} : ThunkEvent R → Bool
  | ThunkEvent.fulfilled _ _ => true
  | ThunkEvent.rejected _ _ => true
  | _ => false

/-- Whether a thunk action is a `rejected` action. -/
def isRejectedEvent {R : Type} : ThunkEvent R → Bool
  | ThunkEvent.rejected _ _ => true
  | _ => false

/-- Whether a thunk action is terminal (ends the request's state machine). -/
def isTerminalEvent {R : Type} : ThunkEvent R → Bool
  | ThunkEvent.pending _ => false
  | ThunkEvent.fulfilled _ _ => true
  | ThunkEvent.rejected _ _ => true
  | ThunkEvent.aborted _ _ => true

/-- When (if ever) the caller invokes `thunkAction.abort(reason)` relative to
the execution of the dispatched thunk. -/
inductive AbortTiming where
  | beforeDispatch (reason : String)
  | inFlight (reason : String)
  | never
deriving DecidableEq

/-- Whether the abort happened before the thunk began executing. -/
def AbortTiming.isBeforeDispatch : AbortTiming → Bool
  | AbortTiming.beforeDispatch _ => true
  | _ => false

/-- The outcome the user payload creator would produce if allowed to finish. -/
inductive RunOutcome (R : Type) where
  | success (r : R)
  | failure (e : SerializedError)
deriving DecidableEq

/-- Modelled from the spec: the `createAsyncThunk` implementation is not in the
source tree (only its test suite is). The sequence of actions dispatched for
one request execution is reconstructed from spec section 4.2 as refined by the
test expectations: without an abort, `pending` then `fulfilled`/`rejected`;
aborted in flight, `pending` then a distinct `aborted` action carrying an
`AbortError`-named error whose message is the abort reason; aborted before
dispatch, the single `aborted` action with no `pending` at all (the tests
`abort after dispatch` and `abort before dispatch` pin these sequences). -/
def runAsyncThunk {R : Type} (requestId : String) (timing : AbortTiming)
    (outcome : RunOutcome R) : List (ThunkEvent R) :=
  match timing with
  | AbortTiming.beforeDispatch reason =>
      [ThunkEvent.aborted ⟨"AbortError", reason⟩ reason]
  | AbortTiming.inFlight reason =>
      [ThunkEvent.pending requestId, ThunkEvent.aborted ⟨"AbortError", reason⟩ reason]
  | AbortTiming.never =>
      [ThunkEvent.pending requestId,
        match outcome with
        | RunOutcome.success r => ThunkEvent.fulfilled requestId r
        | RunOutcome.failure e => ThunkEvent.rejected requestId e]

/-! ### Cache entry reducer (spec-modelled) -/

/-- Status of a query cache entry. -/
inductive QueryStatus where
  | uninit
  | pending
  | fulfilled
  | rejected
deriving DecidableEq

/-- One cache entry of the cache store slice: status, last fulfilled data,
last error and the requestId of the most recent request. -/
structure CacheEntryState (R : Type) where
  status : QueryStatus
  data : Option R
  error : Option SerializedError
  requestId : Option String
deriving DecidableEq

/-- Modelled from the spec: the cache-store reducer (`buildSlice`) is not in
the source tree. Transitions follow the table in spec section 4.3: `pending`
sets status pending, clears the error, records the requestId and retains
`data`; `fulfilled`/`rejected` apply only on a matching requestId, `fulfilled`
replacing `data` and `rejected` retaining it; the distinct `aborted` action
terminates the entry like a rejection and never touches `data`. -/
def reduceEntry {R : Type} (st : CacheEntryState R) : ThunkEvent R → CacheEntryState R
  | ThunkEvent.pending rid =>
      { st with status := QueryStatus.pending, error := none, requestId := some rid }
  | ThunkEvent.fulfilled rid r =>
      if st.requestId = some rid then
        { st with status := QueryStatus.fulfilled, data := some r, error := none }
      else st
  | ThunkEvent.rejected rid e =>
      if st.requestId = some rid then
        { st with status := QueryStatus.rejected, error := some e }
      else st
  | ThunkEvent.aborted e _ =>
      { st with status := QueryStatus.rejected, error := some e }

/-- Modelled from the spec: the `updateQueryData` thunk (`buildThunks`) that
`updateCacheEntry` dispatches is not in the source tree. Per spec section
4.6(d) and the `updateCacheEntry` test, it applies the recipe to the currently
cached data and must be a no-op when no data is present yet. -/
def updateQueryData {R : Type} (recipe : R → R) (data : Option R) : Option R :=
  match data with
  | none => none
  | some d => some (recipe d)

/-! ### The cacheLifecycle middleware embedding -/

/-- Endpoint kind, mirroring `DefinitionType` from `endpointDefinitions`. -/
inductive DefinitionType where
  | query
  | mutation
deriving DecidableEq

/-- The parts of an endpoint definition the middleware consults: its type and
whether an `onCacheEntryAdded` handler is registered. -/
structure EndpointDefinition where
  type : DefinitionType
  onCacheEntryAdded : Bool
deriving DecidableEq

/-- The middleware context: the endpoint definitions registry
(`context.endpointDefinitions`). -/
structure Env where
  endpointDefinitions : String → Option EndpointDefinition

/-- The actions the middleware inspects. Query thunk actions carry the
endpoint name, `originalArgs` and the serialized `queryCacheKey` in their
meta; mutation thunk actions carry the endpoint name, `originalArgs` and the
`requestId`. `removeQueryResult` carries a `queryCacheKey` payload;
`unsubscribeMutationResult` carries a requestId payload. `other` stands for
any action the middleware does not match. -/
inductive Action (R : Type) where
  | queryPending (endpointName originalArgs queryCacheKey requestId : String)
  | queryFulfilled (endpointName originalArgs queryCacheKey requestId : String) (result : R)
  | queryRejected (queryCacheKey requestId : String)
  | mutationPending (endpointName originalArgs requestId : String)
  | mutationFulfilled (endpointName originalArgs requestId : String) (result : R)
  | mutationRejected (requestId : String)
  | removeQueryResult (queryCacheKey : String)
  | unsubscribeMutationResult (requestId : String)
  | resetApiState
  | other
deriving DecidableEq

/-- Mirror of the middleware's `getCacheKey`: query thunk actions are keyed by
`action.meta.arg.queryCacheKey`, mutation thunk actions by
`action.meta.requestId`, `removeQueryResult` by `action.payload.queryCacheKey`,
and every other action (including `unsubscribeMutationResult`, which the
function does not match) by the empty string. -/
def getCacheKey {R : Type} : Action R → String
  | Action.queryPending _ _ k _ => k
  | Action.queryFulfilled _ _ k _ _ => k
  | Action.queryRejected k _ => k
  | Action.mutationPending _ _ rid => rid
  | Action.mutationFulfilled _ _ rid _ => rid
  | Action.mutationRejected rid => rid
  | Action.removeQueryResult k => k
  | _ => ""

/-- Settlement state of the `firstValueResolved` promise handed to an
`onCacheEntryAdded` handler (the `Promise.race` of the `valueResolved`
resolver arm against the `cleanup`-then-throw arm). -/
inductive FirstValueState (R : Type) where
  | pending
  | resolved (value : R)
  | rejectedNeverResolved
deriving DecidableEq

/-- One `CacheLifecycle` record created by `handleNewKey`, together with the
settlement state of the two promises it controls. `hasValueResolved` mirrors
the optional `valueResolved` resolver, which is deleted after its first
invocation. -/
structure CacheLifecycleRecord (R : Type) where
  hasValueResolved : Bool
  firstValueResolved : FirstValueState R
  cleanupResolved : Bool
deriving DecidableEq

/-- Effect of invoking `lifecycle.valueResolved(value)`: the race resolves
with `value` if it is still pending (a settled promise ignores further
settlement attempts), and the resolver is deleted. -/
def resolveFirst {R : Type} (v : R) (rec : CacheLifecycleRecord R) : CacheLifecycleRecord R :=
  { rec with
    hasValueResolved := false
    firstValueResolved :=
      match rec.firstValueResolved with
      | FirstValueState.pending => FirstValueState.resolved v
      | s => s }

/-- Effect of invoking `lifecycle.cleanup()`: the cleanup promise resolves,
and through the race's `cleanup.then(() => { throw neverResolvedError })` arm
the `firstValueResolved` promise rejects with the "never resolved" error if no
value had settled it yet. -/
def applyCleanup {R : Type} (rec : CacheLifecycleRecord R) : CacheLifecycleRecord R :=
  { rec with
    cleanupResolved := true
    firstValueResolved :=
      match rec.firstValueResolved with
      | FirstValueState.pending => FirstValueState.rejectedNeverResolved
      | s => s }

/-- State owned by one middleware instance: the `lifecycleMap` (an association
from cache keys to indices into `records`) and the list of all lifecycle
records ever created (records are never destroyed, only unlinked: the promise
objects survive in the hands of the handlers that received them). -/
structure MwState (R : Type) where
  lifecycleMap : List (String × Nat)
  records : List (CacheLifecycleRecord R)
deriving DecidableEq

/-- The slice state the middleware reads through `mwApi.getState()`:
`queries[cacheKey]?.requestId` and whether `mutations[requestId]` exists. -/
structure StoreState where
  queries : String → Option String
  mutations : String → Bool

/-- Lookup in the lifecycle map. -/
def mapLookup (k : String) : List (String × Nat) → Option Nat
  | [] => none
  | p :: m => if p.1 = k then some p.2 else mapLookup k m

/-- Removal of a key from the lifecycle map (`delete lifecycleMap[k]`). -/
def mapErase (k : String) : List (String × Nat) → List (String × Nat)
  | [] => []
  | p :: m => if p.1 = k then mapErase k m else p :: mapErase k m

/-- Assignment `lifecycleMap[k] = i`, overwriting any previous binding. -/
def mapInsert (k : String) (i : Nat) (m : List (String × Nat)) : List (String × Nat) :=
  (k, i) :: mapErase k m

/-- Index into a list of records (JS array indexing, `records[i]`). -/
def listAt {α : Type} : Nat → List α → Option α
  | _, [] => none
  | 0, r :: _ => some r
  | i + 1, _ :: rs => listAt i rs

/-- In-place update of the record at one index. -/
def modifyRecord {α : Type} (f : α → α) : Nat → List α → List α
  | _, [] => []
  | 0, r :: rs => f r :: rs
  | i + 1, r :: rs => r :: modifyRecord f i rs

/-- Apply `applyCleanup` to every record whose index occurs in `idxs`,
counting positions from `j` (used by the `resetApiState` branch, which runs
`lifecycle.cleanup()` for every entry of the map). -/
def cleanupIndexed {R : Type} (idxs : List Nat) :
    Nat → List (CacheLifecycleRecord R) → List (CacheLifecycleRecord R)
  | _, [] => []
  | j, r :: rs => (if j ∈ idxs then applyCleanup r else r) :: cleanupIndexed idxs (j + 1) rs

/-- Mirror of `handleNewKey`: look up the endpoint definition; return early if
it has no `onCacheEntryAdded` handler; otherwise create a fresh lifecycle
record (resolver registered, both promises pending) and bind the cache key to
it in the lifecycle map. -/
def handleNewKey {R : Type} (env : Env) (st : MwState R)
    (endpointName _originalArgs queryCacheKey _requestId : String) : MwState R :=
  match env.endpointDefinitions endpointName with
  | none => st
  | some d =>
    if d.onCacheEntryAdded then
      { lifecycleMap := mapInsert queryCacheKey st.records.length st.lifecycleMap
        records := st.records ++ [⟨true, FirstValueState.pending, false⟩] }
    else st

/-- Mirror of the `isFullfilledThunk(action)` branch: if the key has a
lifecycle record whose `valueResolved` resolver is still registered, invoke it
with `action.payload.result` and delete it. -/
def fulfilledStep {R : Type} (st : MwState R) (cacheKey : String) (result : R) : MwState R :=
  match mapLookup cacheKey st.lifecycleMap with
  | none => st
  | some i =>
    match listAt i st.records with
    | none => st
    | some rec =>
      if rec.hasValueResolved then
        { st with records := modifyRecord (resolveFirst result) i st.records }
      else st

/-- Mirror of the `removeQueryResult`/`unsubscribeMutationResult` branch:
if the key has a lifecycle record, delete it from the map and run its
`cleanup()`. -/
def removalStep {R : Type} (st : MwState R) (cacheKey : String) : MwState R :=
  match mapLookup cacheKey st.lifecycleMap with
  | none => st
  | some i =>
    { lifecycleMap := mapErase cacheKey st.lifecycleMap
      records := modifyRecord applyCleanup i st.records }

/-- Mirror of the `resetApiState` branch: delete every entry of the map and
run `cleanup()` on each of its records. -/
def resetStep {R : Type} (st : MwState R) : MwState R :=
  { lifecycleMap := []
    records := cleanupIndexed (st.lifecycleMap.map Prod.snd) 0 st.records }

/-- One synchronous pass of the middleware over a dispatched action (the body
of `(next) => (action) => ...` after `next(action)` has reduced the action
into `store`). In each branch the cache key used is `getCacheKey action` for
that constructor: the `queryCacheKey` for query thunk actions, the `requestId`
for mutation thunk actions, the payload key for `removeQueryResult`, and the
empty string for `unsubscribeMutationResult` (which `getCacheKey` does not
match). A query `pending` registers a record only when the state entry's
requestId equals the action's requestId; a mutation `pending` only when a
state entry for the requestId exists. -/
def step {R : Type} (env : Env) (store : StoreState) (st : MwState R) :
    Action R → MwState R
  | Action.queryPending en oa k rid =>
    match store.queries k with
    | some stateRid => if stateRid = rid then handleNewKey env st en oa k rid else st
    | none => st
  | Action.mutationPending en oa rid =>
    if store.mutations rid then handleNewKey env st en oa rid rid else st
  | Action.queryFulfilled _ _ k _ v => fulfilledStep st k v
  | Action.mutationFulfilled _ _ rid v => fulfilledStep st rid v
  | Action.removeQueryResult k => removalStep st k
  | Action.unsubscribeMutationResult _ => removalStep st ""
  | Action.resetApiState => resetStep st
  | _ => st

/-! ### The lifecycle api object handed to handlers -/

/-- The api object `handleNewKey` passes to `onCacheEntryAdded` (the parts
beyond the spread of `mwApi`): the requestId, the `getCacheEntry` snapshot
accessor built from the endpoint's selector, and `updateCacheEntry`, which is
a patch function for query endpoints and `undefined` for mutation
endpoints. -/
structure LifecycleApi (R : Type) where
  requestId : String
  getCacheEntry : Unit → Option R
  updateCacheEntry : Option ((R → R) → Option R → Option R)

/-- Mirror of the `lifecycleApi` object literal in `handleNewKey`:
`updateCacheEntry` dispatches the `updateQueryData` thunk when the endpoint
definition is a query, and is `undefined` otherwise. -/
def mkLifecycleApi {R : Type} (d : EndpointDefinition) (requestId : String)
    (selector : Unit → Option R) : LifecycleApi R :=
  { requestId := requestId
    getCacheEntry := selector
    updateCacheEntry :=
      if d.type = DefinitionType.query then some updateQueryData else none }

/-! ### Handler error containment -/

/-- How one invocation of an `onCacheEntryAdded` handler terminates: it may
throw synchronously before returning, return and resolve, or return a promise
that rejects with some error. -/
inductive HookOutcome (E : Type) where
  | syncThrow (e : E)
  | resolves
  | rejects (e : E)
deriving DecidableEq

/-- Where a handler error surfaces: as an exception escaping the synchronous
dispatch pipeline, nowhere at all, or as a detached unhandled promise
rejection outside the pipeline. -/
inductive HandlerEffect (E : Type) where
  | syncException (e : E)
  | swallowed
  | unhandledRejection (e : E)
deriving DecidableEq

/-- Mirror of the handler invocation at the end of `handleNewKey`:
`onCacheEntryAdded(...)` is called directly with no try/catch, so a
synchronous throw escapes into the dispatch pipeline; the returned promise is
guarded by `Promise.resolve(runningHandler).catch((e) => { if (e ===
neverResolvedError) return; throw e })`, so a rejection identical to the
never-resolved error is swallowed and any other rejection is re-thrown inside
the catch, surfacing only as a detached unhandled rejection. -/
def runHandler {E : Type} [DecidableEq E] (neverResolvedError : E) :
    HookOutcome E → HandlerEffect E
  | HookOutcome.syncThrow e => HandlerEffect.syncException e
  | HookOutcome.resolves => HandlerEffect.swallowed
  | HookOutcome.rejects e =>
      if e = neverResolvedError then HandlerEffect.swallowed
      else HandlerEffect.unhandledRejection e

/-! ### Concrete instances used by the witnesses -/

/-- An endpoint registry with one query endpoint with a lifecycle handler. -/
def envQ : Env :=
  ⟨fun n => if n = "getUser" then some ⟨DefinitionType.query, true⟩ else none⟩

/-- An endpoint registry with one mutation endpoint with a lifecycle
handler. -/
def envM : Env :=
  ⟨fun n => if n = "addUser" then some ⟨DefinitionType.mutation, true⟩ else none⟩

/-- A slice state with one query entry at key `keyA` owned by `req1`, and
mutation entries for `reqM1` and `reqM2`. -/
def storeW : StoreState :=
  ⟨fun k => if k = "keyA" then some "req1" else none,
   fun r => (r == "reqM1") || (r == "reqM2")⟩

/-- The empty middleware state. -/
def stEmptyN : MwState Nat := ⟨[], []⟩

/-- A middleware state with one registered, still-pending lifecycle record. -/
def stW1 : MwState Nat := ⟨[("keyA", 0)], [⟨true, FirstValueState.pending, false⟩]⟩

/-- A middleware state with two registered lifecycle records. -/
def stW2 : MwState Nat :=
  ⟨[("keyA", 0), ("keyB", 1)],
   [⟨true, FirstValueState.pending, false⟩, ⟨false, FirstValueState.resolved 7, false⟩]⟩

/-! ### Supporting lemmas -/

theorem listAt_append_left {α : Type} (l1 l2 : List α) (j : Nat) (a : α)
    (h : listAt j l1 = some a) : listAt j (l1 ++ l2) = some a := by
  induction l1 generalizing j with
  | nil => simp [listAt] at h
  | cons x xs ih =>
    cases j with
    | zero => simpa [listAt] using h
    | succ j => simpa [listAt] using ih j (by simpa [listAt] using h)

theorem modifyRecord_listAt {α : Type} (f : α → α) (i j : Nat) (l : List α) :
    listAt j (modifyRecord f i l) = if i = j then (listAt j l).map f else listAt j l := by
  induction l generalizing i j with
  | nil =>
    simp only [modifyRecord, listAt]
    split <;> rfl
  | cons r rs ih =>
    cases i with
    | zero =>
      cases j with
      | zero => simp [modifyRecord, listAt]
      | succ j => simp [modifyRecord, listAt]
    | succ i =>
      cases j with
      | zero => simp [modifyRecord, listAt]
      | succ j => simpa [modifyRecord, listAt] using ih i j

theorem cleanupIndexed_listAt {R : Type} (idxs : List Nat) (j n : Nat)
    (l : List (CacheLifecycleRecord R)) :
    listAt n (cleanupIndexed idxs j l) =
      (listAt n l).map (fun r => if j + n ∈ idxs then applyCleanup r else r) := by
  induction l generalizing j n with
  | nil => simp [cleanupIndexed, listAt]
  | cons r rs ih =>
    cases n with
    | zero => simp [cleanupIndexed, listAt]
    | succ n =>
      simp only [cleanupIndexed, listAt, ih (j + 1) n]
      rw [show j + 1 + n = j + (n + 1) from by omega]

theorem mapLookup_mapErase_self (k : String) (m : List (String × Nat)) :
    mapLookup k (mapErase k m) = none := by
  induction m with
  | nil => rfl
  | cons p m ih =>
    by_cases h : p.1 = k
    · simp [mapErase, h, ih]
    · simp [mapErase, mapLookup, h, ih]

theorem mapLookup_mapErase_ne (k k2 : String) (h : k ≠ k2) (m : List (String × Nat)) :
    mapLookup k (mapErase k2 m) = mapLookup k m := by
  induction m with
  | nil => rfl
  | cons p m ih =>
    by_cases hp : p.1 = k2
    · have hk : p.1 ≠ k := by
        rw [hp]; exact fun hh => h hh.symm
      simp [mapErase, mapLookup, hp, hk, ih, Ne.symm h]
    · simp [mapErase, mapLookup, hp, ih]

theorem mapLookup_mapInsert_self (k : String) (i : Nat) (m : List (String × Nat)) :
    mapLookup k (mapInsert k i m) = some i := by
  simp [mapInsert, mapLookup]

theorem mapLookup_mapInsert_ne (k k2 : String) (i : Nat) (h : k2 ≠ k)
    (m : List (String × Nat)) :
    mapLookup k2 (mapInsert k i m) = mapLookup k2 m := by
  have hk : k ≠ k2 := fun hh => h hh.symm
  simp only [mapInsert, mapLookup, hk, if_false]
  exact mapLookup_mapErase_ne k2 k h m

theorem mapLookup_mem_snd (k : String) (m : List (String × Nat)) (i : Nat)
    (h : mapLookup k m = some i) : i ∈ m.map Prod.snd := by
  induction m with
  | nil => simp [mapLookup] at h
  | cons p m ih =>
    by_cases hp : p.1 = k
    · simp only [mapLookup, hp, if_true, Option.some.injEq] at h
      simp [← h]
    · simp only [mapLookup, hp, if_false] at h
      simp [ih h]

theorem resolveFirst_resolved {R : Type} (v w : R) (rec : CacheLifecycleRecord R)
    (h : rec.firstValueResolved = FirstValueState.resolved w) :
    (resolveFirst v rec).firstValueResolved = FirstValueState.resolved w := by
  simp [resolveFirst, h]

theorem applyCleanup_resolved {R : Type} (w : R) (rec : CacheLifecycleRecord R)
    (h : rec.firstValueResolved = FirstValueState.resolved w) :
    (applyCleanup rec).firstValueResolved = FirstValueState.resolved w := by
  simp [applyCleanup, h]

theorem handleNewKey_records_listAt {R : Type} (env : Env) (st : MwState R)
    (en oa k rid : String) (j : Nat) (rec : CacheLifecycleRecord R)
    (h : listAt j st.records = some rec) :
    listAt j (handleNewKey env st en oa k rid).records = some rec := by
  unfold handleNewKey
  cases hdef : env.endpointDefinitions en with
  | none => simpa using h
  | some d =>
    cases hh : d.onCacheEntryAdded with
    | false => simpa [hh] using h
    | true =>
      simp only [hh, if_true]
      exact listAt_append_left _ _ _ _ h

theorem fulfilledStep_preserves_resolved {R : Type} (st : MwState R) (k : String)
    (v : R) (j : Nat) (rec : CacheLifecycleRecord R) (w : R)
    (hj : listAt j st.records = some rec)
    (hw : rec.firstValueResolved = FirstValueState.resolved w) :
    ∃ rec2, listAt j (fulfilledStep st k v).records = some rec2 ∧
      rec2.firstValueResolved = FirstValueState.resolved w := by
  unfold fulfilledStep
  split
  · exact ⟨rec, hj, hw⟩
  · split
    · exact ⟨rec, hj, hw⟩
    · split
      · rename_i x0 i hl0 x1 reci hri hb
        by_cases hij : i = j
        · subst hij
          rw [hj] at hri
          injection hri with hri
          subst hri
          refine ⟨resolveFirst v rec, ?_, resolveFirst_resolved v w rec hw⟩
          simp [modifyRecord_listAt, hj]
        · refine ⟨rec, ?_, hw⟩
          simp [modifyRecord_listAt, hij, hj]
      · exact ⟨rec, hj, hw⟩

theorem removalStep_preserves_resolved {R : Type} (st : MwState R) (k : String)
    (j : Nat) (rec : CacheLifecycleRecord R) (w : R)
    (hj : listAt j st.records = some rec)
    (hw : rec.firstValueResolved = FirstValueState.resolved w) :
    ∃ rec2, listAt j (removalStep st k).records = some rec2 ∧
      rec2.firstValueResolved = FirstValueState.resolved w := by
  unfold removalStep
  split
  · exact ⟨rec, hj, hw⟩
  · rename_i x0 i hl0
    by_cases hij : i = j
    · subst hij
      refine ⟨applyCleanup rec, ?_, applyCleanup_resolved w rec hw⟩
      simp [modifyRecord_listAt, hj]
    · refine ⟨rec, ?_, hw⟩
      simp [modifyRecord_listAt, hij, hj]

theorem resetStep_preserves_resolved {R : Type} (st : MwState R)
    (j : Nat) (rec : CacheLifecycleRecord R) (w : R)
    (hj : listAt j st.records = some rec)
    (hw : rec.firstValueResolved = FirstValueState.resolved w) :
    ∃ rec2, listAt j (resetStep st).records = some rec2 ∧
      rec2.firstValueResolved = FirstValueState.resolved w := by
  unfold resetStep
  simp only [cleanupIndexed_listAt, hj, Option.map_some, Nat.zero_add]
  by_cases hmem : j ∈ st.lifecycleMap.map Prod.snd
  · exact ⟨applyCleanup rec, by simp [hmem], applyCleanup_resolved w rec hw⟩
  · exact ⟨rec, by simp [hmem], hw⟩

theorem step_preserves_resolved {R : Type} (env : Env) (store : StoreState)
    (st : MwState R) (a : Action R) (j : Nat) (rec : CacheLifecycleRecord R) (w : R)
    (hj : listAt j st.records = some rec)
    (hw : rec.firstValueResolved = FirstValueState.resolved w) :
    ∃ rec2, listAt j (step env store st a).records = some rec2 ∧
      rec2.firstValueResolved = FirstValueState.resolved w := by
  cases a with
  | queryPending en oa k rid =>
    simp only [step]
    split
    · split
      · exact ⟨rec, handleNewKey_records_listAt env st en oa k rid j rec hj, hw⟩
      · exact ⟨rec, hj, hw⟩
    · exact ⟨rec, hj, hw⟩
  | mutationPending en oa rid =>
    simp only [step]
    split
    · exact ⟨rec, handleNewKey_records_listAt env st en oa rid rid j rec hj, hw⟩
    · exact ⟨rec, hj, hw⟩
  | queryFulfilled en oa k rid v =>
    exact fulfilledStep_preserves_resolved st k v j rec w hj hw
  | mutationFulfilled en oa rid v =>
    exact fulfilledStep_preserves_resolved st rid v j rec w hj hw
  | queryRejected k rid => exact ⟨rec, hj, hw⟩
  | mutationRejected rid => exact ⟨rec, hj, hw⟩
  | removeQueryResult k =>
    exact removalStep_preserves_resolved st k j rec w hj hw
  | unsubscribeMutationResult rid =>
    exact removalStep_preserves_resolved st "" j rec w hj hw
  | resetApiState => exact resetStep_preserves_resolved st j rec w hj hw
  | other => exact ⟨rec, hj, hw⟩

/-! ### Claim C1 -/

/-- Claim C1: for every cache key whose registered `onCacheEntryAdded`
lifecycle record still has a pending `firstValueResolved` promise (no value
has ever been fulfilled for that key), removing the cache entry — by the
eviction action `removeQueryResult` for that key, or by the full-state reset
`resetApiState` — settles the record to `applyCleanup rec`, whose
`firstValueResolved` is rejected with the distinguished "never resolved"
error. -/
theorem claim_c1_never_resolved_on_cleanup {R : Type} (env : Env)
    (store : StoreState) (st : MwState R) (k : String) (i : Nat)
    (rec : CacheLifecycleRecord R)
    (hmap : mapLookup k st.lifecycleMap = some i)
    (hrec : listAt i st.records = some rec)
    (hpending : rec.firstValueResolved = FirstValueState.pending) :
    listAt i (step env store st (Action.removeQueryResult k)).records
        = some (applyCleanup rec) ∧
    listAt i (step env store st Action.resetApiState).records
        = some (applyCleanup rec) ∧
    (applyCleanup rec).firstValueResolved = FirstValueState.rejectedNeverResolved := by
  refine ⟨?_, ?_, ?_⟩
  · simp only [step, removalStep, hmap]
    simp [modifyRecord_listAt, hrec]
  · simp only [step, resetStep]
    rw [cleanupIndexed_listAt]
    have hmem := mapLookup_mem_snd k st.lifecycleMap i hmap
    simp [hrec, hmem]
  · simp [applyCleanup, hpending]

/-- Witness for claim C1 at a concrete registered, still-pending record. -/
theorem claim_c1_witness :
    listAt 0 (step envQ storeW stW1 (Action.resetApiState : Action Nat)).records
        = some (applyCleanup ⟨true, FirstValueState.pending, false⟩) ∧
    (applyCleanup (⟨true, FirstValueState.pending, false⟩ : CacheLifecycleRecord Nat)).firstValueResolved
        = FirstValueState.rejectedNeverResolved := by
  have h := claim_c1_never_resolved_on_cleanup envQ storeW stW1 "keyA" 0
      ⟨true, FirstValueState.pending, false⟩ (by decide) (by decide) (by decide)
  exact ⟨h.2.1, h.2.2⟩

/-! ### Claim C2 -/

/-- Claim C2 refuted as stated: a request execution aborted before dispatch
produces a non-empty action sequence containing no `pending` action at all
(the `abort before dispatch` test pins exactly this sequence), so it is not
the case that a pending action is always dispatched first. -/
theorem claim_c2_refuted :
    (runAsyncThunk "r1" (AbortTiming.beforeDispatch "AbortReason")
        (RunOutcome.success (42 : Nat))).filter isPendingEvent = [] ∧
    runAsyncThunk "r1" (AbortTiming.beforeDispatch "AbortReason")
        (RunOutcome.success (42 : Nat)) ≠ [] := by
  exact ⟨rfl, by decide⟩

/-- Claim C2 (amended): unless the request is aborted before the thunk
dispatches (in which case a single `aborted` action is dispatched with no
`pending`), a `pending` action is dispatched first, followed by exactly one
terminal event (`fulfilled`, `rejected` or `aborted`); in every case a
`fulfilled` or `rejected` event is only ever observed at position 1, after its
corresponding `pending` at position 0. -/
theorem claim_c2_dispatch_order (R : Type) (rid : String) (timing : AbortTiming)
    (outcome : RunOutcome R) :
    (timing.isBeforeDispatch = false →
      ∃ t, runAsyncThunk rid timing outcome = [ThunkEvent.pending rid, t] ∧
        isTerminalEvent t = true) ∧
    (∀ (i : Nat) (e : ThunkEvent R),
      listAt i (runAsyncThunk rid timing outcome) = some e →
      isFulfilledOrRejected e = true →
      i = 1 ∧ listAt 0 (runAsyncThunk rid timing outcome) =
        some (ThunkEvent.pending rid)) := by
  cases timing with
  | beforeDispatch reason =>
    constructor
    · intro h
      simp [AbortTiming.isBeforeDispatch] at h
    · intro i e hi he
      cases i with
      | zero =>
        simp only [runAsyncThunk, listAt, Option.some.injEq] at hi
        subst hi
        simp [isFulfilledOrRejected] at he
      | succ i => simp [runAsyncThunk, listAt] at hi
  | inFlight reason =>
    constructor
    · intro h
      exact ⟨ThunkEvent.aborted ⟨"AbortError", reason⟩ reason, rfl, rfl⟩
    · intro i e hi he
      cases i with
      | zero =>
        simp only [runAsyncThunk, listAt, Option.some.injEq] at hi
        subst hi
        simp [isFulfilledOrRejected] at he
      | succ i =>
        cases i with
        | zero =>
          simp only [runAsyncThunk, listAt, Option.some.injEq] at hi
          subst hi
          simp [isFulfilledOrRejected] at he
        | succ i => simp [runAsyncThunk, listAt] at hi
  | never =>
    cases outcome with
    | success r =>
      constructor
      · intro h
        exact ⟨ThunkEvent.fulfilled rid r, rfl, rfl⟩
      · intro i e hi he
        cases i with
        | zero =>
          simp only [runAsyncThunk, listAt, Option.some.injEq] at hi
          subst hi
          simp [isFulfilledOrRejected] at he
        | succ i =>
          cases i with
          | zero => exact ⟨rfl, rfl⟩
          | succ i => simp [runAsyncThunk, listAt] at hi
    | failure er =>
      constructor
      · intro h
        exact ⟨ThunkEvent.rejected rid er, rfl, rfl⟩
      · intro i e hi he
        cases i with
        | zero =>
          simp only [runAsyncThunk, listAt, Option.some.injEq] at hi
          subst hi
          simp [isFulfilledOrRejected] at he
        | succ i =>
          cases i with
          | zero => exact ⟨rfl, rfl⟩
          | succ i => simp [runAsyncThunk, listAt] at hi

/-- Witness for the amended claim C2 at a concrete successful execution. -/
theorem claim_c2_witness :
    listAt 0 (runAsyncThunk "r1" AbortTiming.never (RunOutcome.success (42 : Nat)))
      = some (ThunkEvent.pending "r1") := by
  have h := (claim_c2_dispatch_order Nat "r1" AbortTiming.never
      (RunOutcome.success 42)).2 1 (ThunkEvent.fulfilled "r1" 42) (by rfl) (by rfl)
  exact h.2

/-! ### Claim C3 -/

/-- Claim C3 refuted as stated: for a request aborted in flight the dispatched
sequence contains no `rejected` action at all — the terminal event is the
distinct `aborted` action type (`test/aborted` in the test suite), so no
"terminal rejected event" is dispatched. -/
theorem claim_c3_refuted :
    (runAsyncThunk "r1" (AbortTiming.inFlight "AbortReason")
        (RunOutcome.success (42 : Nat))).filter isRejectedEvent = [] ∧
    (runAsyncThunk "r1" (AbortTiming.inFlight "AbortReason")
        (RunOutcome.success (42 : Nat))).filter isTerminalEvent =
      [ThunkEvent.aborted ⟨"AbortError", "AbortReason"⟩ "AbortReason"] := by
  exact ⟨rfl, rfl⟩

/-- Claim C3 (amended): for every request cancelled in flight via the abort
signal the state machine still completes — the dispatched sequence is exactly
`pending` followed by a terminal `aborted` action carrying the distinguished
`AbortError` kind — and reducing the sequence over the cache entry leaves the
entry in the terminal `rejected` status (never permanently pending) with its
cached `data` field unchanged. -/
theorem claim_c3_abort_completes (R : Type) (rid reason : String)
    (outcome : RunOutcome R) (entry : CacheEntryState R) :
    runAsyncThunk rid (AbortTiming.inFlight reason) outcome =
      [ThunkEvent.pending rid, ThunkEvent.aborted ⟨"AbortError", reason⟩ reason] ∧
    isTerminalEvent
      (ThunkEvent.aborted ⟨"AbortError", reason⟩ reason : ThunkEvent R) = true ∧
    ((runAsyncThunk rid (AbortTiming.inFlight reason) outcome).foldl
        reduceEntry entry).status = QueryStatus.rejected ∧
    ((runAsyncThunk rid (AbortTiming.inFlight reason) outcome).foldl
        reduceEntry entry).data = entry.data := by
  refine ⟨rfl, rfl, ?_, ?_⟩
  · simp [runAsyncThunk, reduceEntry]
  · simp [runAsyncThunk, reduceEntry]

/-! ### Claim C4 -/

/-- Claim C4 refuted as stated: an error thrown synchronously by the
`onCacheEntryAdded` callback does escape into the synchronous dispatch
pipeline — `handleNewKey` invokes the callback directly with no try/catch,
and only the returned promise is guarded. -/
theorem claim_c4_refuted :
    runHandler (0 : Nat) (HookOutcome.syncThrow 1) = HandlerEffect.syncException 1 := rfl

/-- Claim C4 (amended): an error *rejected* by the `onCacheEntryAdded`
callback's returned promise never propagates into the synchronous dispatch
pipeline — a rejection identical to the "never resolved" error is swallowed
entirely at the top level, and any other rejection surfaces only as a
detached unhandled promise rejection — but an error thrown synchronously by
the callback does propagate into the dispatch pipeline. -/
theorem claim_c4_handler_error_containment (E : Type) [DecidableEq E] (nre e : E)
    (h : e ≠ nre) :
    runHandler nre (HookOutcome.rejects nre) = HandlerEffect.swallowed ∧
    runHandler nre (HookOutcome.rejects e) = HandlerEffect.unhandledRejection e ∧
    runHandler nre HookOutcome.resolves = HandlerEffect.swallowed ∧
    runHandler nre (HookOutcome.syncThrow e) = HandlerEffect.syncException e := by
  exact ⟨by simp [runHandler], by simp [runHandler, h], rfl, rfl⟩

/-- Witness for the amended claim C4 at concrete error values. -/
theorem claim_c4_witness :
    runHandler (0 : Nat) (HookOutcome.rejects 0) = HandlerEffect.swallowed ∧
    runHandler (0 : Nat) (HookOutcome.rejects 1) = HandlerEffect.unhandledRejection 1 := by
  have h := claim_c4_handler_error_containment Nat 0 1 (by decide)
  exact ⟨h.1, h.2.1⟩

/-! ### Claim C5 -/

/-- Claim C5: the `firstValueResolved` promise of a registered lifecycle
record resolves with the first value ever fulfilled for that cache key: on a
`fulfilled` action for the key, the still-registered resolver is invoked with
the action's result payload and then removed, so the promise settles to
`resolved v`; and once settled to a resolved value, no later action of any
kind ever changes that settled value. -/
theorem claim_c5_first_value {R : Type} (env : Env) (store : StoreState)
    (st : MwState R) (en oa k rid : String) (v : R) (i : Nat)
    (rec : CacheLifecycleRecord R)
    (hmap : mapLookup k st.lifecycleMap = some i)
    (hrec : listAt i st.records = some rec)
    (hres : rec.hasValueResolved = true) :
    listAt i (step env store st (Action.queryFulfilled en oa k rid v)).records =
      some (resolveFirst v rec) ∧
    (rec.firstValueResolved = FirstValueState.pending →
      (resolveFirst v rec).firstValueResolved = FirstValueState.resolved v ∧
      (resolveFirst v rec).hasValueResolved = false) ∧
    (∀ (st2 : MwState R) (a : Action R) (j : Nat) (rec2 : CacheLifecycleRecord R) (w : R),
      listAt j st2.records = some rec2 →
      rec2.firstValueResolved = FirstValueState.resolved w →
      ∃ rec3, listAt j (step env store st2 a).records = some rec3 ∧
        rec3.firstValueResolved = FirstValueState.resolved w) := by
  refine ⟨?_, ?_, ?_⟩
  · simp only [step, fulfilledStep, hmap, hrec, hres, if_true]
    simp [modifyRecord_listAt, hrec]
  · intro hp
    exact ⟨by simp [resolveFirst, hp], by simp [resolveFirst]⟩
  · intro st2 a j rec2 w hj hw
    exact step_preserves_resolved env store st2 a j rec2 w hj hw

/-- Witness for claim C5 at a concrete registered record and fulfillment. -/
theorem claim_c5_witness :
    listAt 0 (step envQ storeW stW1
        (Action.queryFulfilled "getUser" "1" "keyA" "req1" (5 : Nat))).records =
      some (resolveFirst 5 ⟨true, FirstValueState.pending, false⟩) ∧
    (resolveFirst (5 : Nat) ⟨true, FirstValueState.pending, false⟩).firstValueResolved =
      FirstValueState.resolved 5 := by
  have h := claim_c5_first_value envQ storeW stW1 "getUser" "1" "keyA" "req1" (5 : Nat) 0
      ⟨true, FirstValueState.pending, false⟩ (by decide) (by decide) (by decide)
  exact ⟨h.1, (h.2.1 (by decide)).1⟩

/-! ### Claim C6 -/

/-- Claim C6: the imperative cache-data patch function exposed to lifecycle
hooks is a no-op when no data is present in the cache entry yet, and applies
the recipe to the data once it exists (repeated patches compose on the
current data). The dispatched `updateQueryData` thunk is modelled from the
spec, as its implementation is not in the source tree. -/
theorem claim_c6_update_cache_entry_no_op (R : Type) (recipe recipe2 : R → R) (d : R) :
    updateQueryData recipe (none : Option R) = none ∧
    updateQueryData recipe (some d) = some (recipe d) ∧
    updateQueryData recipe2 (updateQueryData recipe (some d)) =
      some (recipe2 (recipe d)) := by
  exact ⟨rfl, rfl, rfl⟩

/-! ### Claim C7 -/

/-- Claim C7: dispatching `resetApiState` cleans up every registered
lifecycle entry — the lifecycle map is left empty and every record reachable
from it has its cleanup promise resolved; and a `removeQueryResult` action for
a single query cache key removes exactly that key's lifecycle record (other
keys' bindings are untouched) and resolves its cleanup promise. -/
theorem claim_c7_cleanup_on_reset_and_removal {R : Type} (env : Env)
    (store : StoreState) (st : MwState R) (k : String) (i : Nat)
    (hmap : mapLookup k st.lifecycleMap = some i) :
    (step env store st Action.resetApiState).lifecycleMap = [] ∧
    (∀ (k2 : String) (i2 : Nat) (rec : CacheLifecycleRecord R),
      mapLookup k2 st.lifecycleMap = some i2 →
      listAt i2 st.records = some rec →
      listAt i2 (step env store st Action.resetApiState).records =
        some (applyCleanup rec) ∧
      (applyCleanup rec).cleanupResolved = true) ∧
    mapLookup k (step env store st (Action.removeQueryResult k)).lifecycleMap = none ∧
    (∀ k2 : String, k2 ≠ k →
      mapLookup k2 (step env store st (Action.removeQueryResult k)).lifecycleMap =
        mapLookup k2 st.lifecycleMap) ∧
    (∀ rec : CacheLifecycleRecord R, listAt i st.records = some rec →
      listAt i (step env store st (Action.removeQueryResult k)).records =
        some (applyCleanup rec)) := by
  refine ⟨?_, ?_, ?_, ?_, ?_⟩
  · simp [step, resetStep]
  · intro k2 i2 rec hm2 hr2
    constructor
    · simp only [step, resetStep]
      rw [cleanupIndexed_listAt]
      have hmem := mapLookup_mem_snd k2 st.lifecycleMap i2 hm2
      simp [hr2, hmem]
    · simp [applyCleanup]
  · simp only [step, removalStep, hmap]
    simp [mapLookup_mapErase_self]
  · intro k2 hne
    simp only [step, removalStep, hmap]
    simp [mapLookup_mapErase_ne k2 k hne]
  · intro rec hr
    simp only [step, removalStep, hmap]
    simp [modifyRecord_listAt, hr]

/-- Witness for claim C7 at a concrete two-entry lifecycle map. -/
theorem claim_c7_witness :
    (step envQ storeW stW2 (Action.resetApiState : Action Nat)).lifecycleMap = [] ∧
    mapLookup "keyA" (step envQ storeW stW2
        (Action.removeQueryResult "keyA" : Action Nat)).lifecycleMap = none ∧
    mapLookup "keyB" (step envQ storeW stW2
        (Action.removeQueryResult "keyA" : Action Nat)).lifecycleMap =
      mapLookup "keyB" stW2.lifecycleMap := by
  have h := claim_c7_cleanup_on_reset_and_removal envQ storeW stW2 "keyA" 0 (by decide)
  exact ⟨h.1, h.2.2.1, h.2.2.2.1 "keyB" (by decide)⟩

/-! ### Claim C8 -/

/-- Claim C8: mutation cache entries are keyed directly by `requestId` while
query cache entries are keyed by the serialized `queryCacheKey` (the
`getCacheKey` equations), so two mutation dispatches with identical endpoint
and arguments but distinct requestIds register two distinct lifecycle records
under distinct keys, never sharing one. -/
theorem claim_c8_mutation_keying {R : Type} (env : Env) (store : StoreState)
    (st : MwState R) (en args r1 r2 qk : String) (v : R) (d : EndpointDefinition)
    (hdef : env.endpointDefinitions en = some d)
    (hhook : d.onCacheEntryAdded = true)
    (hm1 : store.mutations r1 = true)
    (hm2 : store.mutations r2 = true)
    (hne : r1 ≠ r2) :
    getCacheKey (Action.mutationPending en args r1 : Action R) = r1 ∧
    getCacheKey (Action.mutationFulfilled en args r1 v) = r1 ∧
    getCacheKey (Action.queryPending en args qk r1 : Action R) = qk ∧
    mapLookup r1 (step env store (step env store st (Action.mutationPending en args r1))
        (Action.mutationPending en args r2)).lifecycleMap = some st.records.length ∧
    mapLookup r2 (step env store (step env store st (Action.mutationPending en args r1))
        (Action.mutationPending en args r2)).lifecycleMap = some (st.records.length + 1) ∧
    mapLookup r1 (step env store (step env store st (Action.mutationPending en args r1))
        (Action.mutationPending en args r2)).lifecycleMap ≠
      mapLookup r2 (step env store (step env store st (Action.mutationPending en args r1))
        (Action.mutationPending en args r2)).lifecycleMap := by
  have e1 : step env store st (Action.mutationPending en args r1) =
      (⟨mapInsert r1 st.records.length st.lifecycleMap,
        st.records ++ [⟨true, FirstValueState.pending, false⟩]⟩ : MwState R) := by
    simp [step, hm1, handleNewKey, hdef, hhook]
  have e2 : step env store (step env store st (Action.mutationPending en args r1))
      (Action.mutationPending en args r2) =
      (⟨mapInsert r2 (st.records.length + 1)
          (mapInsert r1 st.records.length st.lifecycleMap),
        (st.records ++ [⟨true, FirstValueState.pending, false⟩]) ++
          [⟨true, FirstValueState.pending, false⟩]⟩ : MwState R) := by
    rw [e1]
    simp [step, hm2, handleNewKey, hdef, hhook]
  have l1 : mapLookup r1 (step env store
      (step env store st (Action.mutationPending en args r1))
      (Action.mutationPending en args r2)).lifecycleMap = some st.records.length := by
    rw [e2]
    rw [show ((⟨mapInsert r2 (st.records.length + 1)
        (mapInsert r1 st.records.length st.lifecycleMap),
        (st.records ++ [⟨true, FirstValueState.pending, false⟩]) ++
          [⟨true, FirstValueState.pending, false⟩]⟩ : MwState R)).lifecycleMap =
      mapInsert r2 (st.records.length + 1)
        (mapInsert r1 st.records.length st.lifecycleMap) from rfl]
    rw [mapLookup_mapInsert_ne r2 r1 (st.records.length + 1) hne]
    exact mapLookup_mapInsert_self r1 st.records.length st.lifecycleMap
  have l2 : mapLookup r2 (step env store
      (step env store st (Action.mutationPending en args r1))
      (Action.mutationPending en args r2)).lifecycleMap =
      some (st.records.length + 1) := by
    rw [e2]
    exact mapLookup_mapInsert_self r2 (st.records.length + 1) _
  refine ⟨rfl, rfl, rfl, l1, l2, ?_⟩
  rw [l1, l2]
  intro hc
  injection hc with hc
  omega

/-- Witness for claim C8 at two concrete mutation dispatches with identical
arguments. -/
theorem claim_c8_witness :
    mapLookup "reqM1" (step envM storeW (step envM storeW stEmptyN
        (Action.mutationPending "addUser" "bob" "reqM1"))
        (Action.mutationPending "addUser" "bob" "reqM2")).lifecycleMap = some 0 ∧
    mapLookup "reqM2" (step envM storeW (step envM storeW stEmptyN
        (Action.mutationPending "addUser" "bob" "reqM1"))
        (Action.mutationPending "addUser" "bob" "reqM2")).lifecycleMap = some 1 := by
  have h := claim_c8_mutation_keying envM storeW stEmptyN "addUser" "bob" "reqM1" "reqM2"
      "qk" (0 : Nat) ⟨DefinitionType.mutation, true⟩ (by decide) (by decide) (by decide)
      (by decide) (by decide)
  exact ⟨h.2.2.2.1, h.2.2.2.2.1⟩

/-! ### Claim C9 -/

/-- Claim C9: a lifecycle record for a query cache key is created on a
`pending` action only when that action's requestId equals the requestId
currently stored in the state entry for that key — a superseded or absent
entry registers nothing and leaves the middleware state unchanged — and for
mutations the record is created only when a state entry for the requestId
exists. -/
theorem claim_c9_pending_registration {R : Type} (env : Env) (store : StoreState)
    (st : MwState R) (en oa k rid : String) :
    (store.queries k = none →
      step env store st (Action.queryPending en oa k rid : Action R) = st) ∧
    (∀ other : String, store.queries k = some other → other ≠ rid →
      step env store st (Action.queryPending en oa k rid : Action R) = st) ∧
    (∀ d : EndpointDefinition, store.queries k = some rid →
      env.endpointDefinitions en = some d → d.onCacheEntryAdded = true →
      (step env store st (Action.queryPending en oa k rid)).lifecycleMap =
        mapInsert k st.records.length st.lifecycleMap ∧
      (step env store st (Action.queryPending en oa k rid)).records =
        st.records ++ [⟨true, FirstValueState.pending, false⟩]) ∧
    (store.mutations rid = false →
      step env store st (Action.mutationPending en oa rid : Action R) = st) ∧
    (∀ d : EndpointDefinition, store.mutations rid = true →
      env.endpointDefinitions en = some d → d.onCacheEntryAdded = true →
      (step env store st (Action.mutationPending en oa rid)).lifecycleMap =
        mapInsert rid st.records.length st.lifecycleMap ∧
      (step env store st (Action.mutationPending en oa rid)).records =
        st.records ++ [⟨true, FirstValueState.pending, false⟩]) := by
  refine ⟨?_, ?_, ?_, ?_, ?_⟩
  · intro h
    simp [step, h]
  · intro other h hne
    simp [step, h, hne]
  · intro d hq hdef hh
    constructor <;> simp [step, hq, handleNewKey, hdef, hh]
  · intro h
    simp [step, h]
  · intro d hm hdef hh
    constructor <;> simp [step, hm, handleNewKey, hdef, hh]

/-- Witness for claim C9: a superseded pending registers nothing, a matching
pending appends a fresh record. -/
theorem claim_c9_witness :
    step envQ storeW stEmptyN (Action.queryPending "getUser" "1" "keyA" "req2") = stEmptyN ∧
    (step envQ storeW stEmptyN (Action.queryPending "getUser" "1" "keyA" "req1")).records =
      stEmptyN.records ++ [⟨true, FirstValueState.pending, false⟩] := by
  refine ⟨?_, ?_⟩
  · exact (claim_c9_pending_registration envQ storeW stEmptyN "getUser" "1" "keyA"
      "req2").2.1 "req1" (by decide) (by decide)
  · exact ((claim_c9_pending_registration envQ storeW stEmptyN "getUser" "1" "keyA"
      "req1").2.2.1 ⟨DefinitionType.query, true⟩ (by decide) (by decide) (by decide)).2

/-! ### Claim C10 -/

/-- Claim C10: the `updateCacheEntry` patch function is provided to lifecycle
hooks only for query endpoint definitions — for mutation endpoints it is
`undefined` — while the `getCacheEntry` accessor is provided for both, so
mutation lifecycle hooks can read the cache entry but cannot patch cached
data imperatively. -/
theorem claim_c10_update_only_for_queries (R : Type) (b : Bool) (rid : String)
    (selector : Unit → Option R) :
    (mkLifecycleApi (⟨DefinitionType.mutation, b⟩ : EndpointDefinition) rid
        selector).updateCacheEntry = none ∧
    (mkLifecycleApi (⟨DefinitionType.query, b⟩ : EndpointDefinition) rid
        selector).updateCacheEntry = some updateQueryData ∧
    (mkLifecycleApi (⟨DefinitionType.mutation, b⟩ : EndpointDefinition) rid
        selector).getCacheEntry = selector ∧
    (mkLifecycleApi (⟨DefinitionType.query, b⟩ : EndpointDefinition) rid
        selector).getCacheEntry = selector := by
  refine ⟨?_, rfl, rfl, rfl⟩
  simp [mkLifecycleApi]

end ReduxStarterKit
